import Mathlib

/-!
# Verification of the gate_bob_deploy trade-execution engine

Shallow embedding of the core of the repository: the contract-sizing
calculation (`c_utils.py`), the take-profit builder (`c_utils.py`), the
pre-trade risk validation and signal flow (`main.py`), the position-slot
state machine (`b_context.py`, `c_sync.py`, `main.py`), the TP/SL modify
flow (`d_templates.py`), the limit-order timeout supervisor (`main.py`)
and the exchange gateway's request retry loop (`API/GATE/gate.py`).

Python machine floats are modelled as exact rationals; Python's
banker's rounding (`round`) is modelled by `pyRound`/`pyRoundDec`.
-/

namespace GateBob

/-- Python `round(q)`: round half to even (banker's rounding). -/
def pyRound (q : ℚ) : ℤ :=
  let f := ⌊q⌋
  let r := q - (f : ℚ)
  if r < 1/2 then f
  else if 1/2 < r then f + 1
  else if f % 2 = 0 then f else f + 1

/-- Python `round(q, n)`: round to `n` decimal digits, half to even. -/
def pyRoundDec (q : ℚ) (n : ℕ) : ℚ :=
  ((pyRound (q * 10 ^ n) : ℚ)) / 10 ^ n

/-- `Utils.contract_calc` from `c_utils.py`: converts margin, entry price,
leverage and contract metadata into an exchange-valid contract quantity.
Returns `none` when an input among `margin_size, entry_price, leverage,
ctVal, lotSz` is non-positive, or when the computed quantity is `≤ 0`. -/
def contract_calc (margin_size entry_price leverage ctVal lotSz : ℚ)
    (contract_precision : ℕ) (volume_rate : ℚ) : Option ℚ :=
  if margin_size ≤ 0 ∨ entry_price ≤ 0 ∨ leverage ≤ 0 ∨ ctVal ≤ 0 ∨ lotSz ≤ 0 then
    none
  else
    let deal_amount := margin_size * (volume_rate / 100)
    let base_qty := deal_amount * leverage / entry_price
    let raw_contracts := base_qty / ctVal
    let rounded_steps := (pyRound (raw_contracts / lotSz) : ℚ) * lotSz
    let contracts := pyRoundDec rounded_steps contract_precision
    if contracts ≤ 0 then none else some contracts

/-- The sizing pipeline exactly as the specification words it:
`deal_amount = margin * volume_rate; base_qty = deal_amount * leverage /
entry_price; raw_contracts = base_qty / contract_value; rounded =
round(raw_contracts / lot_size) * lot_size; quantity = round(rounded,
precision)`. -/
def size_contracts_spec (margin_size entry_price leverage ctVal lotSz : ℚ)
    (contract_precision : ℕ) (volume_rate : ℚ) : ℚ :=
  pyRoundDec
    ((pyRound ((margin_size * (volume_rate / 100)) * leverage / entry_price / ctVal / lotSz) : ℚ)
      * lotSz)
    contract_precision

/-- C2: the contract-sizing function returns exactly the quantity of the
spec's pipeline, and returns `none` exactly when some input among margin,
entry price, leverage, contract value, lot size is non-positive or the
final quantity is `≤ 0`. -/
theorem contract_calc_matches_spec
    (m p l cv ls : ℚ) (prec : ℕ) (vr : ℚ) :
    contract_calc m p l cv ls prec vr =
      if m ≤ 0 ∨ p ≤ 0 ∨ l ≤ 0 ∨ cv ≤ 0 ∨ ls ≤ 0 ∨
          size_contracts_spec m p l cv ls prec vr ≤ 0 then
        none
      else
        some (size_contracts_spec m p l cv ls prec vr) := by
  simp only [contract_calc, size_contracts_spec]
  split_ifs <;> first
    | rfl
    | (exfalso; tauto)

/-! ## Pre-trade risk validation (`validate_risk_order`, `main.py`) -/

/-- Position side as parsed upstream; `validate_risk_order` rejects any
other string before the checks modelled here. -/
inductive Side where
  | LONG
  | SHORT
deriving DecidableEq, Repr

/-- `pct_diff(a, b)` from `validate_risk_order`: `abs(a - b) / a * 100`. -/
def pct_diff (a b : ℚ) : ℚ := |a - b| / a * 100

/-- The stop-loss checks of the LONG branch of `validate_risk_order`;
`none` means the checks pass and control falls through. -/
def long_sl_check (cur s eps : ℚ) : Option String :=
  if s ≤ 0 then some "Invalid stop-loss"
  else if cur ≤ s then
    some ("Stop-loss must be BELOW current price (sl=" ++
      (toString s ++ (", cur=" ++ (toString cur ++ ")"))))
  else if pct_diff cur s < eps then
    some ("Stop-loss too close (< " ++ (toString eps ++ "%)"))
  else none

/-- The take-profit checks of the LONG branch of `validate_risk_order`. -/
def long_tp_check (cur t eps : ℚ) : Option String :=
  if t ≤ 0 then some "Invalid take-profit"
  else if t ≤ cur then
    some ("Take-profit must be ABOVE current price (tp=" ++
      (toString t ++ (", cur=" ++ (toString cur ++ ")"))))
  else if pct_diff cur t < eps then
    some ("Take-profit too close (< " ++ (toString eps ++ "%)"))
  else none

/-- The stop-loss checks of the SHORT branch of `validate_risk_order`. -/
def short_sl_check (cur s eps : ℚ) : Option String :=
  if s ≤ 0 then some "Invalid stop-loss"
  else if s ≤ cur then
    some ("Stop-loss must be ABOVE current price (sl=" ++
      (toString s ++ (", cur=" ++ (toString cur ++ ")"))))
  else if pct_diff cur s < eps then
    some ("Stop-loss too close (< " ++ (toString eps ++ "%)"))
  else none

/-- The take-profit checks of the SHORT branch of `validate_risk_order`. -/
def short_tp_check (cur t eps : ℚ) : Option String :=
  if t ≤ 0 then some "Invalid take-profit"
  else if cur ≤ t then
    some ("Take-profit must be BELOW current price (tp=" ++
      (toString t ++ (", cur=" ++ (toString cur ++ ")"))))
  else if pct_diff cur t < eps then
    some ("Take-profit too close (< " ++ (toString eps ++ "%)"))
  else none

/-- `validate_risk_order` from `main.py`: SL must be on the losing side and
TP on the winning side of the current price, each at a percentage distance
not below `epsilon_pct`; returns `"ok"` on success, else the first failing
check's message. An absent SL or TP is not checked. -/
def validate_risk_order (pos_side : Side) (cur_price : ℚ)
    (sl tp : Option ℚ) (epsilon_pct : ℚ) : String :=
  if cur_price ≤ 0 then "Invalid current price"
  else
    let failure : Option String :=
      match pos_side with
      | .LONG =>
        (sl.bind fun s => long_sl_check cur_price s epsilon_pct).orElse
          (fun _ => tp.bind fun t => long_tp_check cur_price t epsilon_pct)
      | .SHORT =>
        (sl.bind fun s => short_sl_check cur_price s epsilon_pct).orElse
          (fun _ => tp.bind fun t => short_tp_check cur_price t epsilon_pct)
    failure.getD "ok"

/-- Outcome of the risk-validation part of `Core.complete_signal_task`:
the `entry_status` / `tp1_status` left in the record, and whether the
flow went on to place the main order. -/
structure SignalGateResult where
  entry_status : String
  tp1_status : String
  order_placed : Bool
deriving DecidableEq, Repr

/-- The `for tp_val, vol in take_profits` loop of `complete_signal_task`:
`risk_tp_ok_status` after the loop is the first failing TP's status, or
`"ok"` when every TP validates. -/
def first_tp_failure_status (pos_side : Side) (cur_price : ℚ)
    (take_profits : List (ℚ × ℚ)) (eps : ℚ) : String :=
  match take_profits.find?
      (fun t => !(validate_risk_order pos_side cur_price none (some t.1) eps == "ok")) with
  | some t => validate_risk_order pos_side cur_price none (some t.1) eps
  | none => "ok"

/-- The risk-validation gate of `Core.complete_signal_task` (`main.py`):
starting from `entry_status = "waiting"`, an empty TP list marks
`tp1_status = "Invalid data"`, a failing SL or TP validation overwrites
`entry_status` with the failure message, and the main order is placed only
when `entry_status` is still `"waiting"` and the TP list was valid. -/
def complete_signal_task_gate (pos_side : Side) (cur_price : ℚ)
    (stop_loss : Option ℚ) (take_profits : List (ℚ × ℚ)) : SignalGateResult :=
  if take_profits = [] then
    { entry_status := "waiting", tp1_status := "Invalid data", order_placed := false }
  else
    let sl_status := validate_risk_order pos_side cur_price stop_loss none (1/20)
    let entry₁ := if sl_status ≠ "ok" then sl_status else "waiting"
    let tp_status := first_tp_failure_status pos_side cur_price take_profits (1/20)
    let entry₂ := if tp_status ≠ "ok" then tp_status else entry₁
    { entry_status := entry₂, tp1_status := "none",
      order_placed := decide (entry₂ = "waiting") }

/-- A string at least 3 characters long is not `"ok"`. -/
theorem ne_ok_of_three_le_length (s : String) (h : 3 ≤ s.length) : s ≠ "ok" := by
  intro he
  rw [he] at h
  simp [String.length] at h

/-- Any message starting with a literal prefix of length ≥ 3 is not `"ok"`. -/
theorem prefix_append_ne_ok (p s : String) (hp : 3 ≤ p.length) :
    p ++ s ≠ "ok" := by
  apply ne_ok_of_three_le_length
  rw [String.length_append]
  omega

/-- Appending anything to a literal prefix cannot produce a shorter string. -/
theorem append_ne_short (p s t : String) (h : t.length < p.length) :
    p ++ s ≠ t := by
  intro he
  have hl := congrArg String.length he
  rw [String.length_append] at hl
  omega

/-- Every failure message of `long_sl_check` has at least 17 characters. -/
theorem long_sl_check_ne_some_short (cur s eps : ℚ) (m : String)
    (hm : m.length < 17) : long_sl_check cur s eps ≠ some m := by
  unfold long_sl_check
  split_ifs <;> intro h
  · rw [← Option.some.inj h] at hm
    exact absurd hm (by decide)
  · exact append_ne_short _ _ m (lt_of_lt_of_le hm (by decide)) (Option.some.inj h)
  · exact append_ne_short _ _ m (lt_of_lt_of_le hm (by decide)) (Option.some.inj h)
  · simp at h

/-- Every failure message of `long_tp_check` has at least 17 characters. -/
theorem long_tp_check_ne_some_short (cur t eps : ℚ) (m : String)
    (hm : m.length < 17) : long_tp_check cur t eps ≠ some m := by
  unfold long_tp_check
  split_ifs <;> intro h
  · rw [← Option.some.inj h] at hm
    exact absurd hm (by decide)
  · exact append_ne_short _ _ m (lt_of_lt_of_le hm (by decide)) (Option.some.inj h)
  · exact append_ne_short _ _ m (lt_of_lt_of_le hm (by decide)) (Option.some.inj h)
  · simp at h

/-- Every failure message of `short_sl_check` has at least 17 characters. -/
theorem short_sl_check_ne_some_short (cur s eps : ℚ) (m : String)
    (hm : m.length < 17) : short_sl_check cur s eps ≠ some m := by
  unfold short_sl_check
  split_ifs <;> intro h
  · rw [← Option.some.inj h] at hm
    exact absurd hm (by decide)
  · exact append_ne_short _ _ m (lt_of_lt_of_le hm (by decide)) (Option.some.inj h)
  · exact append_ne_short _ _ m (lt_of_lt_of_le hm (by decide)) (Option.some.inj h)
  · simp at h

/-- Every failure message of `short_tp_check` has at least 17 characters. -/
theorem short_tp_check_ne_some_short (cur t eps : ℚ) (m : String)
    (hm : m.length < 17) : short_tp_check cur t eps ≠ some m := by
  unfold short_tp_check
  split_ifs <;> intro h
  · rw [← Option.some.inj h] at hm
    exact absurd hm (by decide)
  · exact append_ne_short _ _ m (lt_of_lt_of_le hm (by decide)) (Option.some.inj h)
  · exact append_ne_short _ _ m (lt_of_lt_of_le hm (by decide)) (Option.some.inj h)
  · simp at h

theorem long_sl_check_ne_some_ok (cur s eps : ℚ) :
    long_sl_check cur s eps ≠ some "ok" :=
  long_sl_check_ne_some_short cur s eps "ok" (by decide)

theorem long_tp_check_ne_some_ok (cur t eps : ℚ) :
    long_tp_check cur t eps ≠ some "ok" :=
  long_tp_check_ne_some_short cur t eps "ok" (by decide)

theorem short_sl_check_ne_some_ok (cur s eps : ℚ) :
    short_sl_check cur s eps ≠ some "ok" :=
  short_sl_check_ne_some_short cur s eps "ok" (by decide)

theorem short_tp_check_ne_some_ok (cur t eps : ℚ) :
    short_tp_check cur t eps ≠ some "ok" :=
  short_tp_check_ne_some_short cur t eps "ok" (by decide)

/-- The per-field pass condition for a stop-loss: strictly on the losing
side of the current price, at distance ≥ the epsilon threshold. -/
def sl_pass (side : Side) (cur s eps : ℚ) : Prop :=
  0 < s ∧ eps ≤ pct_diff cur s ∧
    match side with
    | .LONG => s < cur
    | .SHORT => cur < s

/-- The per-field pass condition for a take-profit: strictly on the winning
side of the current price, at distance ≥ the epsilon threshold. -/
def tp_pass (side : Side) (cur t eps : ℚ) : Prop :=
  0 < t ∧ eps ≤ pct_diff cur t ∧
    match side with
    | .LONG => cur < t
    | .SHORT => t < cur

theorem long_sl_check_none_iff (cur s eps : ℚ) :
    long_sl_check cur s eps = none ↔ sl_pass .LONG cur s eps := by
  unfold long_sl_check sl_pass
  split_ifs with h1 h2 h3
  · constructor
    · intro h; simp at h
    · rintro ⟨a, -, -⟩; exact absurd h1 (not_le.mpr a)
  · constructor
    · intro h; simp at h
    · rintro ⟨-, -, c⟩; exact absurd h2 (not_le.mpr c)
  · constructor
    · intro h; simp at h
    · rintro ⟨-, b, -⟩; exact absurd h3 (not_lt.mpr b)
  · exact iff_of_true rfl ⟨not_le.mp h1, not_lt.mp h3, not_le.mp h2⟩

theorem long_tp_check_none_iff (cur t eps : ℚ) :
    long_tp_check cur t eps = none ↔ tp_pass .LONG cur t eps := by
  unfold long_tp_check tp_pass
  split_ifs with h1 h2 h3
  · constructor
    · intro h; simp at h
    · rintro ⟨a, -, -⟩; exact absurd h1 (not_le.mpr a)
  · constructor
    · intro h; simp at h
    · rintro ⟨-, -, c⟩; exact absurd h2 (not_le.mpr c)
  · constructor
    · intro h; simp at h
    · rintro ⟨-, b, -⟩; exact absurd h3 (not_lt.mpr b)
  · exact iff_of_true rfl ⟨not_le.mp h1, not_lt.mp h3, not_le.mp h2⟩

theorem short_sl_check_none_iff (cur s eps : ℚ) :
    short_sl_check cur s eps = none ↔ sl_pass .SHORT cur s eps := by
  unfold short_sl_check sl_pass
  split_ifs with h1 h2 h3
  · constructor
    · intro h; simp at h
    · rintro ⟨a, -, -⟩; exact absurd h1 (not_le.mpr a)
  · constructor
    · intro h; simp at h
    · rintro ⟨-, -, c⟩; exact absurd h2 (not_le.mpr c)
  · constructor
    · intro h; simp at h
    · rintro ⟨-, b, -⟩; exact absurd h3 (not_lt.mpr b)
  · exact iff_of_true rfl ⟨not_le.mp h1, not_lt.mp h3, not_le.mp h2⟩

theorem short_tp_check_none_iff (cur t eps : ℚ) :
    short_tp_check cur t eps = none ↔ tp_pass .SHORT cur t eps := by
  unfold short_tp_check tp_pass
  split_ifs with h1 h2 h3
  · constructor
    · intro h; simp at h
    · rintro ⟨a, -, -⟩; exact absurd h1 (not_le.mpr a)
  · constructor
    · intro h; simp at h
    · rintro ⟨-, -, c⟩; exact absurd h2 (not_le.mpr c)
  · constructor
    · intro h; simp at h
    · rintro ⟨-, b, -⟩; exact absurd h3 (not_lt.mpr b)
  · exact iff_of_true rfl ⟨not_le.mp h1, not_lt.mp h3, not_le.mp h2⟩

theorem option_getD_ok_eq_ok_iff (o : Option String) (h : o ≠ some "ok") :
    o.getD "ok" = "ok" ↔ o = none := by
  cases o with
  | none => simp
  | some m =>
    simp only [Option.getD_some]
    constructor
    · intro hm; exact absurd (congrArg some hm) h
    · intro hm; exact absurd hm (by simp)

theorem option_bind_ne_some_ok {α : Type} (o : Option α) (f : α → Option String)
    (h : ∀ x, f x ≠ some "ok") : o.bind f ≠ some "ok" := by
  cases o with
  | none => simp
  | some x => simpa using h x

theorem option_orElse_ne_some_ok (a b : Option String)
    (ha : a ≠ some "ok") (hb : b ≠ some "ok") :
    a.orElse (fun _ => b) ≠ some "ok" := by
  cases a with
  | none => simpa using hb
  | some m => simpa using ha

theorem option_bind_eq_none_iff {α : Type} (o : Option α) (f : α → Option String) :
    o.bind f = none ↔ ∀ x, o = some x → f x = none := by
  cases o <;> simp

/-- `validate_risk_order` returns `"ok"` exactly when the current price is
positive, a present stop-loss is strictly on the losing side of the current
price at percentage distance at least `epsilon_pct`, and a present
take-profit is strictly on the winning side at distance at least
`epsilon_pct` (LONG: SL below / TP above; SHORT mirrored). -/
theorem validate_risk_order_ok_iff (side : Side) (cur : ℚ)
    (sl tp : Option ℚ) (eps : ℚ) :
    validate_risk_order side cur sl tp eps = "ok" ↔
      0 < cur ∧ (∀ s, sl = some s → sl_pass side cur s eps) ∧
        (∀ t, tp = some t → tp_pass side cur t eps) := by
  unfold validate_risk_order
  by_cases hc : cur ≤ 0
  · rw [if_pos hc]
    constructor
    · intro h; exact absurd h (by decide)
    · rintro ⟨h0, -⟩; exact absurd hc (not_le.mpr h0)
  · rw [if_neg hc]
    have h0 : 0 < cur := not_le.mp hc
    cases side with
    | LONG =>
      rw [option_getD_ok_eq_ok_iff _
        (option_orElse_ne_some_ok _ _
          (option_bind_ne_some_ok sl _ (fun s => long_sl_check_ne_some_ok cur s eps))
          (option_bind_ne_some_ok tp _ (fun t => long_tp_check_ne_some_ok cur t eps)))]
      rw [Option.orElse_eq_none', option_bind_eq_none_iff, option_bind_eq_none_iff]
      constructor
      · rintro ⟨hs, ht⟩
        exact ⟨h0, fun s hs' => (long_sl_check_none_iff cur s eps).mp (hs s hs'),
          fun t ht' => (long_tp_check_none_iff cur t eps).mp (ht t ht')⟩
      · rintro ⟨-, hs, ht⟩
        exact ⟨fun s hs' => (long_sl_check_none_iff cur s eps).mpr (hs s hs'),
          fun t ht' => (long_tp_check_none_iff cur t eps).mpr (ht t ht')⟩
    | SHORT =>
      rw [option_getD_ok_eq_ok_iff _
        (option_orElse_ne_some_ok _ _
          (option_bind_ne_some_ok sl _ (fun s => short_sl_check_ne_some_ok cur s eps))
          (option_bind_ne_some_ok tp _ (fun t => short_tp_check_ne_some_ok cur t eps)))]
      rw [Option.orElse_eq_none', option_bind_eq_none_iff, option_bind_eq_none_iff]
      constructor
      · rintro ⟨hs, ht⟩
        exact ⟨h0, fun s hs' => (short_sl_check_none_iff cur s eps).mp (hs s hs'),
          fun t ht' => (short_tp_check_none_iff cur t eps).mp (ht t ht')⟩
      · rintro ⟨-, hs, ht⟩
        exact ⟨fun s hs' => (short_sl_check_none_iff cur s eps).mpr (hs s hs'),
          fun t ht' => (short_tp_check_none_iff cur t eps).mpr (ht t ht')⟩

theorem option_getD_ok_ne (o : Option String) (t : String) (ht : "ok" ≠ t)
    (h : ∀ m, o = some m → m ≠ t) : o.getD "ok" ≠ t := by
  cases o with
  | none => simpa using ht
  | some m => simpa using h m rfl

/-- `validate_risk_order` never returns the sentinel `"waiting"` used by
`complete_signal_task` for an untouched `entry_status`. -/
theorem validate_risk_order_ne_waiting (side : Side) (cur : ℚ)
    (sl tp : Option ℚ) (eps : ℚ) :
    validate_risk_order side cur sl tp eps ≠ "waiting" := by
  unfold validate_risk_order
  by_cases hc : cur ≤ 0
  · rw [if_pos hc]; decide
  · rw [if_neg hc]
    apply option_getD_ok_ne _ _ (by decide)
    intro m hm hw
    subst hw
    cases side with
    | LONG =>
      rcases (Option.orElse_eq_some' _ _ _).mp hm with h1 | ⟨-, h2⟩
      · rcases Option.bind_eq_some'.mp h1 with ⟨s, -, hs⟩
        exact long_sl_check_ne_some_short cur s eps "waiting" (by decide) hs
      · rcases Option.bind_eq_some'.mp h2 with ⟨t', -, ht'⟩
        exact long_tp_check_ne_some_short cur t' eps "waiting" (by decide) ht'
    | SHORT =>
      rcases (Option.orElse_eq_some' _ _ _).mp hm with h1 | ⟨-, h2⟩
      · rcases Option.bind_eq_some'.mp h1 with ⟨s, -, hs⟩
        exact short_sl_check_ne_some_short cur s eps "waiting" (by decide) hs
      · rcases Option.bind_eq_some'.mp h2 with ⟨t', -, ht'⟩
        exact short_tp_check_ne_some_short cur t' eps "waiting" (by decide) ht'

/-- The loop's resulting status is `"ok"` exactly when every TP validates. -/
theorem first_tp_failure_status_ok_iff (side : Side) (cur : ℚ)
    (tps : List (ℚ × ℚ)) (eps : ℚ) :
    first_tp_failure_status side cur tps eps = "ok" ↔
      ∀ t ∈ tps, validate_risk_order side cur none (some t.1) eps = "ok" := by
  unfold first_tp_failure_status
  cases hf : tps.find?
      (fun t => !(validate_risk_order side cur none (some t.1) eps == "ok")) with
  | none =>
    constructor
    · intro _ t ht
      have := List.find?_eq_none.mp hf t ht
      simpa using this
    · intro _; rfl
  | some t =>
    have hp := List.find?_some hf
    constructor
    · intro h; exact absurd h (by simpa using hp)
    · intro hall
      exact absurd (hall t (List.mem_of_find?_eq_some hf)) (by simpa using hp)

/-- The loop's resulting status is never the sentinel `"waiting"`. -/
theorem first_tp_failure_status_ne_waiting (side : Side) (cur : ℚ)
    (tps : List (ℚ × ℚ)) (eps : ℚ) :
    first_tp_failure_status side cur tps eps ≠ "waiting" := by
  unfold first_tp_failure_status
  cases tps.find?
      (fun t => !(validate_risk_order side cur none (some t.1) eps == "ok")) with
  | none => exact (by decide : ("ok" : String) ≠ "waiting")
  | some t => exact validate_risk_order_ne_waiting side cur none (some t.1) eps

/-- C3 counterexample: the claim requires each distance to be strictly
more than 0.05% of the current price, but a LONG stop-loss at exactly
0.05% below the current price passes validation and the order is placed. -/
theorem risk_validation_boundary_counterexample :
    validate_risk_order Side.LONG 50000 (some 49975) none (1/20) = "ok" ∧
    (complete_signal_task_gate Side.LONG 50000 (some 49975)
      [(51000, 100)]).order_placed = true ∧
    ¬ (1/20 < pct_diff 50000 49975) := by
  have hps : pct_diff 50000 (49975 : ℚ) = 1/20 := by
    unfold pct_diff
    rw [show ((50000 : ℚ) - 49975) = 25 by norm_num,
      abs_of_pos (show (0 : ℚ) < 25 by norm_num)]
    norm_num
  have hpt : pct_diff 50000 (51000 : ℚ) = 2 := by
    unfold pct_diff
    rw [show ((50000 : ℚ) - 51000) = -1000 by norm_num,
      abs_of_neg (show (-1000 : ℚ) < 0 by norm_num)]
    norm_num
  have hval : validate_risk_order Side.LONG 50000 (some 49975) none (1/20) = "ok" := by
    apply (validate_risk_order_ok_iff Side.LONG 50000 (some 49975) none (1/20)).mpr
    refine ⟨by norm_num, ?_, ?_⟩
    · intro s hs
      rw [← Option.some.inj hs]
      exact ⟨by norm_num, le_of_eq hps.symm, by show (49975 : ℚ) < 50000; norm_num⟩
    · intro t ht
      exact Option.noConfusion ht
  have htp : first_tp_failure_status Side.LONG 50000 [(51000, 100)] (1/20) = "ok" := by
    apply (first_tp_failure_status_ok_iff Side.LONG 50000 [(51000, 100)] (1/20)).mpr
    intro t ht
    rw [List.mem_singleton.mp ht]
    apply (validate_risk_order_ok_iff Side.LONG 50000 (none : Option ℚ)
      (some 51000) (1/20)).mpr
    refine ⟨by norm_num, ?_, ?_⟩
    · intro s hs
      exact Option.noConfusion hs
    · intro t' ht'
      rw [← Option.some.inj ht']
      show tp_pass Side.LONG 50000 51000 (1/20)
      exact ⟨by norm_num, by rw [hpt]; norm_num, by show (50000 : ℚ) < 51000; norm_num⟩
  refine ⟨hval, ?_, by rw [hps]; exact lt_irrefl _⟩
  unfold complete_signal_task_gate
  rw [if_neg (by simp : ¬([((51000 : ℚ), (100 : ℚ))] = []))]
  simp only [hval, htp]
  rfl

/-- C3 (amended): with a nonempty TP list, the risk gate of
`complete_signal_task` proceeds to order placement iff the current price is
positive, a present stop-loss is strictly below (LONG) / above (SHORT) the
current price by AT LEAST 0.05% of it, and every take-profit strictly above
(LONG) / below (SHORT) by at least 0.05%; when it does not proceed, a
descriptive failure reason replaces `"waiting"` in `entry_status` and no
order is placed. -/
theorem risk_gate_characterization (side : Side) (cur : ℚ) (sl : Option ℚ)
    (tps : List (ℚ × ℚ)) (hne : tps ≠ []) :
    ((complete_signal_task_gate side cur sl tps).order_placed = true ↔
      (0 < cur ∧ (∀ s, sl = some s → sl_pass side cur s (1/20)) ∧
        ∀ t ∈ tps, tp_pass side cur t.1 (1/20))) ∧
    ((complete_signal_task_gate side cur sl tps).order_placed = false →
      (complete_signal_task_gate side cur sl tps).entry_status ≠ "waiting") := by
  have hgate : complete_signal_task_gate side cur sl tps =
      { entry_status :=
          if first_tp_failure_status side cur tps (1/20) ≠ "ok" then
            first_tp_failure_status side cur tps (1/20)
          else if validate_risk_order side cur sl none (1/20) ≠ "ok" then
            validate_risk_order side cur sl none (1/20)
          else "waiting",
        tp1_status := "none",
        order_placed := decide
          ((if first_tp_failure_status side cur tps (1/20) ≠ "ok" then
              first_tp_failure_status side cur tps (1/20)
            else if validate_risk_order side cur sl none (1/20) ≠ "ok" then
              validate_risk_order side cur sl none (1/20)
            else "waiting") = "waiting") } := by
    unfold complete_signal_task_gate
    rw [if_neg hne]
  by_cases hT : first_tp_failure_status side cur tps (1/20) = "ok"
  · by_cases hS : validate_risk_order side cur sl none (1/20) = "ok"
    · have hO : (complete_signal_task_gate side cur sl tps).order_placed = true := by
        rw [hgate, hT, hS]
        rfl
      constructor
      · rw [hO]
        constructor
        · intro _
          obtain ⟨h0, hsl, -⟩ := (validate_risk_order_ok_iff side cur sl none (1/20)).mp hS
          refine ⟨h0, hsl, fun t ht => ?_⟩
          obtain ⟨-, -, htp⟩ := (validate_risk_order_ok_iff side cur none
            (some t.1) (1/20)).mp
            ((first_tp_failure_status_ok_iff side cur tps (1/20)).mp hT t ht)
          exact htp t.1 rfl
        · intro _; rfl
      · intro h
        rw [hO] at h
        simp at h
    · have hnw := validate_risk_order_ne_waiting side cur sl none (1/20)
      have hE : (complete_signal_task_gate side cur sl tps).entry_status =
          validate_risk_order side cur sl none (1/20) := by
        rw [hgate, hT]
        rw [if_neg (show ¬(("ok" : String) ≠ "ok") from fun h => h rfl)]
        rw [if_pos hS]
      have hO : (complete_signal_task_gate side cur sl tps).order_placed = false := by
        rw [hgate, hT]
        rw [if_neg (show ¬(("ok" : String) ≠ "ok") from fun h => h rfl)]
        rw [if_pos hS]
        exact decide_eq_false hnw
      constructor
      · rw [hO]
        constructor
        · intro h; simp at h
        · rintro ⟨h0, hsl, -⟩
          refine absurd ((validate_risk_order_ok_iff side cur sl none (1/20)).mpr
            ⟨h0, hsl, ?_⟩) hS
          intro t ht
          exact Option.noConfusion ht
      · intro _
        rw [hE]
        exact hnw
  · have hnw := first_tp_failure_status_ne_waiting side cur tps (1/20)
    have hE : (complete_signal_task_gate side cur sl tps).entry_status =
        first_tp_failure_status side cur tps (1/20) := by
      rw [hgate]
      rw [if_pos hT]
    have hO : (complete_signal_task_gate side cur sl tps).order_placed = false := by
      rw [hgate]
      rw [if_pos hT]
      exact decide_eq_false hnw
    constructor
    · rw [hO]
      constructor
      · intro h; simp at h
      · rintro ⟨h0, -, htp⟩
        refine absurd ((first_tp_failure_status_ok_iff side cur tps (1/20)).mpr
          (fun t ht => ?_)) hT
        apply (validate_risk_order_ok_iff side cur none (some t.1) (1/20)).mpr
        refine ⟨h0, ?_, ?_⟩
        · intro s hs
          exact Option.noConfusion hs
        · intro t' ht'
          rw [← Option.some.inj ht']
          exact htp t ht
    · intro _
      rw [hE]
      exact hnw

/-- Witness for `risk_gate_characterization` at the spec's scenario input:
LONG, current price 50000, SL 49500, one TP at 51000. -/
theorem risk_gate_characterization_witness :
    (complete_signal_task_gate Side.LONG 50000 (some 49500)
      [(51000, 100)]).order_placed = true := by
  have h1 : pct_diff 50000 (49500 : ℚ) = 1 := by
    unfold pct_diff
    rw [show ((50000 : ℚ) - 49500) = 500 by norm_num,
      abs_of_pos (show (0 : ℚ) < 500 by norm_num)]
    norm_num
  have h2 : pct_diff 50000 (51000 : ℚ) = 2 := by
    unfold pct_diff
    rw [show ((50000 : ℚ) - 51000) = -1000 by norm_num,
      abs_of_neg (show (-1000 : ℚ) < 0 by norm_num)]
    norm_num
  apply ((risk_gate_characterization Side.LONG 50000 (some 49500) [(51000, 100)]
      (by simp)).1).mpr
  refine ⟨by norm_num, fun s hs => ?_, fun t ht => ?_⟩
  · rw [← Option.some.inj hs]
    exact ⟨by norm_num, by rw [h1]; norm_num, by show (49500 : ℚ) < 50000; norm_num⟩
  · rw [List.mem_singleton.mp ht]
    show tp_pass Side.LONG 50000 51000 (1/20)
    exact ⟨by norm_num, by rw [h2]; norm_num, by show (50000 : ℚ) < 51000; norm_num⟩

/-! ## Take-profit construction (`Utils.build_take_profits`, `c_utils.py`) -/

/-- `safe_float` from `c_utils.py`: converts to float, default `0.0`
(an absent dict key arrives here as Python `None`). -/
def safe_float (v : Option ℚ) : ℚ := v.getD 0

/-- The take-profit–related fields of the parsed signal message. -/
structure ParsedMsg where
  take_profit1 : Option ℚ
  take_profit : Option ℚ
  take_profit2 : Option ℚ

/-- `Utils.build_take_profits` from `c_utils.py`: builds the list of
`(price, volume-percentage)` take-profits.  When the message carries one
TP and `dop_tp` is set (Python-truthy), TP2 is synthesized at
`entry_price + sign * distance * dop_tp / 100` with
`distance = abs(tp1 - entry_price)` and `sign = +1` for LONG / `-1` for
SHORT, rounded to `price_precision` when that is set.  Since
`safe_float` always yields a float, the `prices` comprehension always
keeps both entries, which are then sorted ascending and split 50/50. -/
def build_take_profits (parsed_msg : ParsedMsg) (dop_tp : Option ℚ)
    (price_precision : Option ℕ) (pos_side : Side) (entry_price : ℚ) :
    List (ℚ × ℚ) :=
  if entry_price ≤ 0 then []
  else
    let tp1_price :=
      if safe_float parsed_msg.take_profit1 ≠ 0 then safe_float parsed_msg.take_profit1
      else safe_float parsed_msg.take_profit
    let tp2_init := safe_float parsed_msg.take_profit2
    let tp2_price :=
      if tp1_price ≠ 0 ∧ dop_tp.getD 0 ≠ 0 ∧ tp2_init = 0 then
        let sign : ℚ := if pos_side = Side.LONG then 1 else -1
        let distance := |tp1_price - entry_price|
        let raw := entry_price + sign * distance * dop_tp.getD 0 / 100
        match price_precision with
        | some pp => pyRoundDec raw pp
        | none => raw
      else tp2_init
    if tp1_price ≤ tp2_price then [(tp1_price, 50), (tp2_price, 50)]
    else [(tp2_price, 50), (tp1_price, 50)]

/-- Evaluation of `build_take_profits` on a message carrying exactly one
TP, with a truthy `dop_tp` and no price rounding. -/
theorem build_take_profits_single_tp (tp1 entry dop : ℚ) (side : Side)
    (h0 : 0 < entry) (h1 : tp1 ≠ 0) (h2 : dop ≠ 0) :
    build_take_profits ⟨some tp1, none, none⟩ (some dop) none side entry =
      (let tp2 := entry +
        (if side = Side.LONG then (1 : ℚ) else -1) * |tp1 - entry| * dop / 100
       if tp1 ≤ tp2 then [(tp1, 50), (tp2, 50)] else [(tp2, 50), (tp1, 50)]) := by
  unfold build_take_profits safe_float
  rw [if_neg (not_le.mpr h0)]
  simp only [Option.getD_some, Option.getD_none]
  rw [if_pos h1, if_pos (⟨h1, h2, trivial⟩ : tp1 ≠ 0 ∧ dop ≠ 0 ∧ True)]

/-- C4 counterexample: with `dop_tp = 50` (< 100) the synthesized second
TP (105) lies strictly CLOSER to the entry (100) than the first (110),
refuting "the synthesized second TP lies strictly further from entry". -/
theorem build_take_profits_closer_counterexample :
    build_take_profits ⟨some 110, none, none⟩ (some 50) none Side.LONG 100 =
      [(105, 50), (110, 50)] ∧
    |(105 : ℚ) - 100| < |(110 : ℚ) - 100| := by
  constructor
  · unfold build_take_profits safe_float
    norm_num
  · norm_num

/-- C4 (amended): when the signal supplies exactly one TP, `dop_tp` is set
and STRICTLY GREATER THAN 100, no price rounding applies, and TP1 lies
strictly on the profit side of the entry, the synthesized TP2 equals
`entry + sign * |tp1 - entry| * dop_tp / 100`, lies strictly further from
the entry than TP1 on the same side, and the returned list is the two TPs
sorted ascending in price with volume portions 50/50 summing to 100. -/
theorem build_take_profits_synthesized_tp2 (tp1 entry dop : ℚ) (side : Side)
    (hentry : 0 < entry) (hdop : 100 < dop)
    (hside : (side = Side.LONG ∧ entry < tp1) ∨
             (side = Side.SHORT ∧ 0 < tp1 ∧ tp1 < entry)) :
    let sign : ℚ := if side = Side.LONG then 1 else -1
    let tp2 := entry + sign * |tp1 - entry| * dop / 100
    build_take_profits ⟨some tp1, none, none⟩ (some dop) none side entry =
      (if side = Side.LONG then [(tp1, 50), (tp2, 50)] else [(tp2, 50), (tp1, 50)]) ∧
    |tp1 - entry| < |tp2 - entry| ∧
    (side = Side.LONG → entry < tp1 ∧ tp1 < tp2) ∧
    (side = Side.SHORT → tp2 < tp1 ∧ tp1 < entry) ∧
    (50 : ℚ) + 50 = 100 := by
  intro sign tp2
  have htp1 : tp1 ≠ 0 := by
    rcases hside with ⟨-, h⟩ | ⟨-, h, -⟩
    · exact ne_of_gt (lt_trans hentry h)
    · exact ne_of_gt h
  have hdop0 : dop ≠ 0 := by positivity
  rcases hside with ⟨hL, h1⟩ | ⟨hS, h0, h1⟩
  · subst hL
    have hsgn : sign = 1 := by
      show (if Side.LONG = Side.LONG then (1 : ℚ) else -1) = 1
      rw [if_pos rfl]
    have habs : |tp1 - entry| = tp1 - entry := abs_of_pos (by linarith)
    have htp2 : tp2 = entry + (tp1 - entry) * dop / 100 := by
      show entry + sign * |tp1 - entry| * dop / 100 = _
      rw [hsgn, habs]; ring
    have hfar : tp1 < tp2 := by
      rw [htp2]
      have hd : (0 : ℚ) < tp1 - entry := by linarith
      have h3 : (tp1 - entry) < (tp1 - entry) * dop / 100 := by
        rw [lt_div_iff₀ (by norm_num : (0:ℚ) < 100)]
        nlinarith [mul_pos hd (show (0:ℚ) < dop - 100 by linarith)]
      linarith
    refine ⟨?_, ?_, ?_, ?_, by norm_num⟩
    · rw [if_pos rfl,
        build_take_profits_single_tp tp1 entry dop Side.LONG hentry htp1 hdop0]
      show (if tp1 ≤ tp2 then [(tp1, 50), (tp2, 50)] else [(tp2, 50), (tp1, 50)]) =
        [(tp1, 50), (tp2, 50)]
      rw [if_pos (le_of_lt hfar)]
    · have h2 : |tp2 - entry| = tp2 - entry := abs_of_pos (by linarith)
      rw [habs, h2]
      linarith
    · intro _
      exact ⟨h1, hfar⟩
    · intro hc
      exact Side.noConfusion hc
  · subst hS
    have hsgn : sign = -1 := by
      show (if Side.SHORT = Side.LONG then (1 : ℚ) else -1) = -1
      rw [if_neg (by decide)]
    have habs : |tp1 - entry| = entry - tp1 := by
      rw [abs_of_neg (by linarith : tp1 - entry < 0)]; ring
    have htp2 : tp2 = entry - (entry - tp1) * dop / 100 := by
      show entry + sign * |tp1 - entry| * dop / 100 = _
      rw [hsgn, habs]; ring
    have hfar : tp2 < tp1 := by
      rw [htp2]
      have hd : (0 : ℚ) < entry - tp1 := by linarith
      have h3 : (entry - tp1) < (entry - tp1) * dop / 100 := by
        rw [lt_div_iff₀ (by norm_num : (0:ℚ) < 100)]
        nlinarith [mul_pos hd (show (0:ℚ) < dop - 100 by linarith)]
      linarith
    refine ⟨?_, ?_, ?_, ?_, by norm_num⟩
    · rw [if_neg (show ¬(Side.SHORT = Side.LONG) by decide),
        build_take_profits_single_tp tp1 entry dop Side.SHORT hentry htp1 hdop0]
      show (if tp1 ≤ tp2 then [(tp1, 50), (tp2, 50)] else [(tp2, 50), (tp1, 50)]) =
        [(tp2, 50), (tp1, 50)]
      rw [if_neg (not_le.mpr hfar)]
    · have h2 : |tp2 - entry| = entry - tp2 := by
        rw [abs_of_neg (by linarith : tp2 - entry < 0)]; ring
      rw [habs, h2]
      linarith
    · intro hc
      exact Side.noConfusion hc
    · intro _
      exact ⟨hfar, h1⟩

/-- Witness for `build_take_profits_synthesized_tp2`: LONG, entry 100,
TP1 110, `dop_tp = 150` synthesizes TP2 at 115, strictly further. -/
theorem build_take_profits_synthesized_tp2_witness :
    build_take_profits ⟨some 110, none, none⟩ (some 150) none Side.LONG 100 =
      [(110, 50), (115, 50)] := by
  have h := build_take_profits_synthesized_tp2 110 100 150 Side.LONG
    (by norm_num) (by norm_num) (Or.inl ⟨rfl, by norm_num⟩)
  obtain ⟨h1, -⟩ := h
  rw [if_pos rfl] at h1
  rw [h1]
  norm_num

/-! ## Position slot state machine
(`b_context.py`, `c_sync.py`, `main.py`, `d_templates.py`) -/

/-- The per-(symbol, side) position slot,
`PositionVarsSetup.pos_vars_root_template` in `b_context.py`. -/
structure Slot where
  leverage : Option ℚ
  margin_vol : Option ℚ
  vol_usdt : Option ℚ
  vol_assets : Option ℚ
  contracts : Option ℚ
  entry_price : Option ℚ
  pending_open : Bool
  in_position : Bool
  order_id : Option String
  tp_order1_id : Option String
  tp_order2_id : Option String
  sl_order_id : Option String
  c_time : Option ℕ
  settings_tag : Option String
deriving DecidableEq, Repr

/-- The default slot template: all values `None`, both flags `False`. -/
def pos_vars_root_template : Slot :=
  { leverage := none, margin_vol := none, vol_usdt := none, vol_assets := none,
    contracts := none, entry_price := none, pending_open := false,
    in_position := false, order_id := none, tp_order1_id := none,
    tp_order2_id := none, sl_order_id := none, c_time := none,
    settings_tag := none }

/-- One engine-side mutation of a position slot, each constructor taken
from a mutation site in the source. -/
inductive SlotStep : Slot → Slot → Prop
  /-- `Core.handle_signal` after the in_position/pending_open gate passes:
  stores the settings tag, the capped leverage and the margin volume. -/
  | handleSignalSetup (s : Slot) (tag : String) (lev mv : ℚ)
      (hgate : s.in_position = false ∧ s.pending_open = false) :
      SlotStep s { s with settings_tag := some tag, leverage := some lev,
                          margin_vol := some mv }
  /-- `OrderTemplates.initial_order_template`: stores the contract quantity
  from `contract_calc` (which is positive whenever the flow continues),
  then the main order id and the open timestamp. -/
  | orderPlaced (s : Slot) (c : ℚ) (oid : String) (t : ℕ) (hc : 0 < c) :
      SlotStep s { s with contracts := some c, order_id := some oid,
                          c_time := some t }
  /-- `OrderTemplates._apply_trigger_result`: records TP/SL trigger ids. -/
  | triggersApplied (s : Slot) (tp1 tp2 slid : Option String) :
      SlotStep s { s with tp_order1_id := tp1, tp_order2_id := tp2,
                          sl_order_id := slid }
  /-- `Core.complete_until_cancel` on entry sets
  `pos_data["pending_open"] = True`. -/
  | supervisorStart (s : Slot) :
      SlotStep s { s with pending_open := true }
  /-- `Core.complete_until_cancel` in its `finally` block sets
  `pos_data["pending_open"] = False`. -/
  | supervisorFinish (s : Slot) :
      SlotStep s { s with pending_open := false }
  /-- `Core.complete_until_cancel` cancellation-exception path sets
  `pos_data["order_id"] = None`. -/
  | supervisorCancelError (s : Slot) :
      SlotStep s { s with order_id := none }
  /-- `Synchronizer.update_active_position`, invoked by `update_positions`
  only when the exchange reports a nonzero size (`contracts > 0`): mirrors
  the exchange record into the slot and sets `in_position := true`. -/
  | reconcilerUpdate (s : Slot) (ep c lev mv vu va : ℚ) (hc : 0 < c) :
      SlotStep s { s with entry_price := some ep, contracts := some c,
                          in_position := true, margin_vol := some mv,
                          vol_usdt := some vu, vol_assets := some va,
                          leverage := some lev }
  /-- `PositionCleaner.reset_position_vars` (reached from `reset_if_needed`
  only when `in_position` is set) calls
  `set_pos_defaults(..., reset_flag=True)`: the slot becomes the template. -/
  | reconcilerReset (s : Slot) (hpos : s.in_position = true) :
      SlotStep s pos_vars_root_template

/-- Slot states reachable from the freshly created template slot. -/
inductive ReachableSlot : Slot → Prop
  | init : ReachableSlot pos_vars_root_template
  | step {s s' : Slot} (h : ReachableSlot s) (hs : SlotStep s s') : ReachableSlot s'

/-- A reachable slot in which `in_position` and `pending_open` hold at
once: a limit order's timeout supervisor has set `pending_open` and the
reconciler has just marked the exchange-confirmed fill. -/
def both_flags_slot : Slot :=
  { pos_vars_root_template with
      pending_open := true, in_position := true,
      entry_price := some 50000, contracts := some 3, margin_vol := some 100,
      vol_usdt := some 150000, vol_assets := some 3, leverage := some 10 }

/-- C1 counterexample: the state in which `in_position` and `pending_open`
are both true is reachable (supervisor start, then reconciler update),
refuting "the flags are never both true". -/
theorem both_flags_reachable_counterexample :
    ReachableSlot both_flags_slot ∧
    both_flags_slot.in_position = true ∧ both_flags_slot.pending_open = true := by
  refine ⟨?_, rfl, rfl⟩
  have h1 : ReachableSlot { pos_vars_root_template with pending_open := true } :=
    ReachableSlot.step ReachableSlot.init (SlotStep.supervisorStart _)
  exact ReachableSlot.step h1
    (SlotStep.reconcilerUpdate _ 50000 3 10 100 150000 3 (by norm_num))

/-- C1 (amended): in every reachable slot state, `in_position = true`
implies the entry price is non-null and the contract quantity is positive
(the other half of the claim, mutual exclusion of `in_position` and
`pending_open`, fails: see the counterexample). -/
theorem in_position_invariant (s : Slot) (h : ReachableSlot s) :
    s.in_position = true →
      s.entry_price.isSome = true ∧ ∃ c, s.contracts = some c ∧ 0 < c := by
  induction h with
  | init => intro hpos; exact absurd hpos (by simp [pos_vars_root_template])
  | step h hs ih =>
    intro hpos
    cases hs with
    | handleSignalSetup tag lev mv hgate =>
      exact absurd hpos (by simp [hgate.1])
    | orderPlaced c oid t hc =>
      obtain ⟨he, -⟩ := ih hpos
      exact ⟨he, c, rfl, hc⟩
    | triggersApplied tp1 tp2 slid => exact ih hpos
    | supervisorStart => exact ih hpos
    | supervisorFinish => exact ih hpos
    | supervisorCancelError => exact ih hpos
    | reconcilerUpdate ep c lev mv vu va hc => exact ⟨rfl, c, rfl, hc⟩
    | reconcilerReset hp =>
      exact absurd hpos (by simp [pos_vars_root_template])

/-- Witness for `in_position_invariant` at the concrete reachable state
`both_flags_slot`. -/
theorem in_position_invariant_witness :
    both_flags_slot.entry_price.isSome = true ∧
      ∃ c, both_flags_slot.contracts = some c ∧ 0 < c :=
  in_position_invariant both_flags_slot
    (ReachableSlot.step
      (ReachableSlot.step ReachableSlot.init (SlotStep.supervisorStart _))
      (SlotStep.reconcilerUpdate _ 50000 3 10 100 150000 3 (by norm_num)))
    rfl

/-! ## Reconciler reset (`PositionCleaner`, `c_sync.py`) -/

/-- The slice of the published `OrderStatusRecord` that
`reset_position_vars` touches. -/
structure OrdRecord where
  entry_status : String
  tp1_status : String
  tp2_status : String
  sl_status : String
  pnl_text : String
deriving DecidableEq, Repr

/-- One anchor of `context.order_status_book[chat_id][(symbol, pos_side)]`. -/
structure Anchor where
  last_data : Option OrdRecord
deriving DecidableEq, Repr

/-- `PositionCleaner.reset_position_vars` (`c_sync.py`), state effect on the
slot and the published anchor: with no anchor the attribute access raises
before any reset; with an anchor but no record the early `return` fires; and
otherwise the `finally` block resets the slot to the template via
`set_pos_defaults(reset_flag=True)` and pops the key from
`order_status_book` (the notifier push and the record's status rewrite
happen on the record that is then dropped). -/
def reset_position_vars (slot : Slot) (anchor : Option Anchor)
    (text_pnl : String) : Slot × Option Anchor :=
  match anchor with
  | none => (slot, none)
  | some a =>
    match a.last_data with
    | none => (slot, some a)
    | some _ => (pos_vars_root_template, none)

/-- `PositionCleaner.reset_if_needed` (`c_sync.py`): resets only a slot
still marked `in_position` (after best-effort PnL lookup and order
cancellation, which do not touch the slot). -/
def reset_if_needed (slot : Slot) (anchor : Option Anchor)
    (text_pnl : String) : Slot × Option Anchor :=
  if slot.in_position = true then reset_position_vars slot anchor text_pnl
  else (slot, anchor)

/-- C7: when the reconciler observes that a previously open position
(`in_position = true`) has disappeared from the exchange position map, the
slot is reset to the exact default template and the published record for
that key is cleared — never a partial reset. -/
theorem reconciler_reset_round_trip (slot : Slot) (anchor : Anchor)
    (r : OrdRecord) (text_pnl : String)
    (hpos : slot.in_position = true) (hrec : anchor.last_data = some r) :
    reset_if_needed slot (some anchor) text_pnl =
      (pos_vars_root_template, none) := by
  unfold reset_if_needed reset_position_vars
  rw [if_pos hpos]
  obtain ⟨ld⟩ := anchor
  dsimp only at hrec ⊢
  rw [hrec]

/-- Witness for `reconciler_reset_round_trip` at the concrete open slot
`both_flags_slot` with a published record. -/
theorem reconciler_reset_round_trip_witness :
    reset_if_needed both_flags_slot
      (some ⟨some ⟨"filled", "pending", "pending", "pending", "PNL"⟩⟩) "PNL: 5" =
      (pos_vars_root_template, none) :=
  reconciler_reset_round_trip both_flags_slot
    ⟨some ⟨"filled", "pending", "pending", "pending", "PNL"⟩⟩
    ⟨"filled", "pending", "pending", "pending", "PNL"⟩ "PNL: 5" rfl rfl

/-! ## Signal dispatch gate (`Core.handle_signal`, `main.py`) -/

/-- The slot-mutating part of `Core.handle_signal` after deduplication:
if the target slot is already `in_position` or `pending_open` the signal
is dropped (no mutation, no order); otherwise the settings tag, the
leverage capped by the instrument's maximum (default 20 when the spec
lacks one), and the margin volume are stored, and the flow proceeds to
`complete_signal_task`.  `fin_settings.get("leverage") or
parsed_msg.get("leverage")` means a configured leverage of 0/None falls
back to the signal's leverage. -/
def handle_signal (slot : Slot) (settings_tag : String)
    (cfg_leverage : Option ℚ) (signal_leverage : ℚ)
    (spec_max_leverage : Option ℚ) (margin_size : ℚ) : Slot × Bool :=
  if slot.in_position = true ∨ slot.pending_open = true then (slot, false)
  else
    let max_leverage := spec_max_leverage.getD 20
    let leverage := min
      (match cfg_leverage with
        | some v => if v = 0 then signal_leverage else v
        | none => signal_leverage)
      max_leverage
    ({ slot with
        settings_tag := some settings_tag,
        leverage := some leverage,
        margin_vol := some margin_size }, true)

/-- C8: a signal whose target slot already has `in_position` or
`pending_open` set is dropped without effect: the slot is returned
unchanged and the flow does not proceed to order placement. -/
theorem handle_signal_drops_when_busy (slot : Slot) (tag : String)
    (cfg_leverage : Option ℚ) (signal_leverage : ℚ)
    (spec_max_leverage : Option ℚ) (margin_size : ℚ)
    (h : slot.in_position = true ∨ slot.pending_open = true) :
    handle_signal slot tag cfg_leverage signal_leverage spec_max_leverage
      margin_size = (slot, false) := by
  unfold handle_signal
  rw [if_pos h]

/-- Witness for `handle_signal_drops_when_busy` at `both_flags_slot`. -/
theorem handle_signal_drops_when_busy_witness :
    handle_signal both_flags_slot "tag1" (some 5) 10 (some 50) 100 =
      (both_flags_slot, false) :=
  handle_signal_drops_when_busy both_flags_slot "tag1" (some 5) 10 (some 50) 100
    (Or.inl rfl)

/-- C10: for every handled signal (gate passed), the leverage stored in
the slot is the minimum of the configured-or-signal leverage and the
instrument's maximum leverage, defaulting to 20 when the spec lacks one;
in particular it never exceeds that maximum. -/
theorem handle_signal_leverage_capped (slot : Slot) (tag : String)
    (cfg_leverage : Option ℚ) (signal_leverage : ℚ)
    (spec_max_leverage : Option ℚ) (margin_size : ℚ)
    (hgate : slot.in_position = false ∧ slot.pending_open = false) :
    (handle_signal slot tag cfg_leverage signal_leverage spec_max_leverage
        margin_size).1.leverage =
      some (min
        (match cfg_leverage with
          | some v => if v = 0 then signal_leverage else v
          | none => signal_leverage)
        (spec_max_leverage.getD 20)) ∧
    ∀ l, (handle_signal slot tag cfg_leverage signal_leverage
        spec_max_leverage margin_size).1.leverage = some l →
      l ≤ spec_max_leverage.getD 20 := by
  have hcond : ¬ (slot.in_position = true ∨ slot.pending_open = true) := by
    rintro (h | h)
    · rw [hgate.1] at h; exact Bool.noConfusion h
    · rw [hgate.2] at h; exact Bool.noConfusion h
  unfold handle_signal
  rw [if_neg hcond]
  refine ⟨rfl, fun l hl => ?_⟩
  rw [← Option.some.inj hl]
  exact min_le_right _ _

/-- Witness for `handle_signal_leverage_capped`: a fresh template slot,
configured leverage 0 (falls back to the signal's 25), instrument max 20. -/
theorem handle_signal_leverage_capped_witness :
    (handle_signal pos_vars_root_template "tag1" (some 0) 25 (some 20)
        100).1.leverage = some (min 25 ((some (20:ℚ)).getD 20)) :=
  (handle_signal_leverage_capped pos_vars_root_template "tag1" (some 0) 25
    (some 20) 100 ⟨rfl, rfl⟩).1

/-! ## Limit-order timeout supervisor (`Core.complete_until_cancel`,
`main.py`; `cancel_all_orders_by_symbol_and_side`, `gate.py`) -/

/-- The two cancellation requests that
`cancel_all_orders_by_symbol_and_side` issues for the symbol/side: main
orders (`DELETE /futures/{settle}/orders`), then trigger orders
(`DELETE /futures/{settle}/price_orders`). -/
inductive CancelKind where
  | mainOrders
  | priceOrders
deriving DecidableEq, Repr

/-- `Core.complete_until_cancel`'s poll loop (`main.py`): one tick per
0.1-second sleep, `fuel` ticks in the `order_timeout` window.  Each
iteration re-checks the elapsed time and the two stop flags, then the
slot's `in_position`; a fill yields `entry_status = "filled"` and no
cancellation, while falling out of the loop yields
`entry_status = "failed. Reason: TIME-OUT"` and the cancellation of all
main and trigger orders for the symbol/side. -/
def complete_until_cancel_run (in_position stop_bot stop_bot_iteration : ℕ → Bool) :
    ℕ → ℕ → String × List CancelKind
  | 0, _ => ("failed. Reason: TIME-OUT", [CancelKind.mainOrders, CancelKind.priceOrders])
  | fuel+1, t =>
    if stop_bot t || stop_bot_iteration t then
      ("failed. Reason: TIME-OUT", [CancelKind.mainOrders, CancelKind.priceOrders])
    else if in_position t then ("filled", [])
    else complete_until_cancel_run in_position stop_bot stop_bot_iteration fuel (t+1)

/-- Helper: the supervisor outcome with the stop flags clear, from any
start tick. -/
theorem complete_until_cancel_run_general (fill : ℕ → Bool) (N t₀ : ℕ) :
    ((∃ i, i < N ∧ fill (t₀ + i) = true) →
      complete_until_cancel_run fill (fun _ => false) (fun _ => false) N t₀ =
        ("filled", [])) ∧
    ((∀ i, i < N → fill (t₀ + i) = false) →
      complete_until_cancel_run fill (fun _ => false) (fun _ => false) N t₀ =
        ("failed. Reason: TIME-OUT",
          [CancelKind.mainOrders, CancelKind.priceOrders])) := by
  induction N generalizing t₀ with
  | zero =>
    constructor
    · rintro ⟨i, hi, -⟩
      exact absurd hi (Nat.not_lt_zero i)
    · intro _; rfl
  | succ n ih =>
    constructor
    · rintro ⟨i, hi, hf⟩
      cases hfil : fill t₀ with
      | true => simp [complete_until_cancel_run, hfil]
      | false =>
        have hnext : ∃ j, j < n ∧ fill (t₀ + 1 + j) = true := by
          cases i with
          | zero =>
            rw [Nat.add_zero] at hf
            exact absurd hf (by simp [hfil])
          | succ k =>
            exact ⟨k, by omega, by rw [show t₀ + 1 + k = t₀ + (k + 1) by omega]; exact hf⟩
        have hrec := (ih (t₀ + 1)).1 hnext
        simp [complete_until_cancel_run, hfil, hrec]
    · intro hall
      have h0 : fill t₀ = false := by
        have := hall 0 (by omega)
        rwa [Nat.add_zero] at this
      have hnext : ∀ j, j < n → fill (t₀ + 1 + j) = false := fun j hj => by
        rw [show t₀ + 1 + j = t₀ + (j + 1) by omega]
        exact hall (j + 1) (by omega)
      have hrec := (ih (t₀ + 1)).2 hnext
      simp [complete_until_cancel_run, h0, hrec]

/-- C6: with the stop flags clear, the timeout supervisor marks
`entry_status = "filled"` (and cancels nothing) iff the position fills at
some poll tick within the `order_timeout` window, and otherwise marks
`entry_status = "failed. Reason: TIME-OUT"` and cancels all main and
trigger orders for the symbol/side. -/
theorem complete_until_cancel_spec (N : ℕ) (fill : ℕ → Bool) :
    ((∃ t, t < N ∧ fill t = true) →
      complete_until_cancel_run fill (fun _ => false) (fun _ => false) N 0 =
        ("filled", [])) ∧
    ((∀ t, t < N → fill t = false) →
      complete_until_cancel_run fill (fun _ => false) (fun _ => false) N 0 =
        ("failed. Reason: TIME-OUT",
          [CancelKind.mainOrders, CancelKind.priceOrders])) := by
  have h := complete_until_cancel_run_general fill N 0
  constructor
  · rintro ⟨t, ht, hf⟩
    exact h.1 ⟨t, ht, by rwa [Nat.zero_add]⟩
  · intro hall
    exact h.2 (fun i hi => by rw [Nat.zero_add]; exact hall i hi)

/-- Witness for `complete_until_cancel_spec` with a 60-second window
(600 ticks): a fill at tick 1 yields "filled"; a never-filling limit order
yields the TIME-OUT status plus both cancellations. -/
theorem complete_until_cancel_spec_witness :
    complete_until_cancel_run (fun t => decide (t = 1)) (fun _ => false)
        (fun _ => false) 600 0 = ("filled", []) ∧
    complete_until_cancel_run (fun _ => false) (fun _ => false)
        (fun _ => false) 600 0 =
      ("failed. Reason: TIME-OUT",
        [CancelKind.mainOrders, CancelKind.priceOrders]) :=
  ⟨(complete_until_cancel_spec 600 (fun t => decide (t = 1))).1
      ⟨1, by norm_num, by decide⟩,
   (complete_until_cancel_spec 600 (fun _ => false)).2 (fun t ht => rfl)⟩

/-! ## Exchange gateway request retry loop (`GateFuturesClient._request`,
`API/GATE/gate.py`) -/

/-- The stop flags living on the shared `BotContext` (`b_context.py`). -/
structure BotContextFlags where
  stop_bot : Bool
  stop_bot_iteration : Bool
deriving DecidableEq, Repr

/-- The flag state held by `GateFuturesClient`: `__init__` copies the
context's CURRENT flag values (`self.stop_bot = context.stop_bot`), so the
client keeps bool snapshots, not references to the live context. -/
structure GateClientFlags where
  stop_bot : Bool
  stop_bot_iteration : Bool
deriving DecidableEq, Repr

/-- `GateFuturesClient.__init__` (`gate.py`): snapshot the context flags. -/
def mkGateClient (context : BotContextFlags) : GateClientFlags :=
  { stop_bot := context.stop_bot,
    stop_bot_iteration := context.stop_bot_iteration }

/-- Outcome of one HTTP attempt inside `_request`. -/
inductive NetOutcome where
  /-- Response received; its parsed JSON body (non-2xx is logged but still
  parsed and returned). -/
  | success (body : String)
  /-- `aiohttp.ClientError` / `asyncio.TimeoutError` (or any other
  exception): sleep ~1s and loop again. -/
  | transportError
  /-- `asyncio.CancelledError`: return `{}`. -/
  | cancelled
deriving DecidableEq, Repr

/-- What `_request` hands back to its caller. -/
inductive ReqResult where
  /-- Parsed JSON body. -/
  | json (body : String)
  /-- The `{}` returned on `asyncio.CancelledError`. -/
  | emptyDict
  /-- Falling off the `while` (its condition false at a loop boundary):
  Python returns `None`. -/
  | pyNone
deriving DecidableEq, Repr

/-- `GateFuturesClient._request`'s retry loop (`gate.py`): the `while`
condition consults `self.stop_bot` / `self.stop_bot_iteration` — the
snapshots taken at construction — at every retry boundary; a transport
error sleeps and retries.  `none` means the loop is still running after
`fuel` attempts. -/
def gate_request_run (client : GateClientFlags) (net : ℕ → NetOutcome) :
    ℕ → ℕ → Option ReqResult
  | 0, _ => none
  | fuel+1, attempt =>
    if client.stop_bot || client.stop_bot_iteration then some ReqResult.pyNone
    else
      match net attempt with
      | NetOutcome.success body => some (ReqResult.json body)
      | NetOutcome.cancelled => some ReqResult.emptyDict
      | NetOutcome.transportError =>
          gate_request_run client net fuel (attempt + 1)

/-- C9 (code bug): a client built while the context flags were clear keeps
retrying a persistently failing request forever — the live context flags
never enter the loop condition, because `__init__` copied their values.
Setting `context.stop_bot` after construction therefore cannot stop the
retry loop, contradicting "whenever the global stop flag ... is set at a
retry boundary, the executor stops retrying and returns an empty
result". -/
theorem gate_request_ignores_live_stop_flags (fuel attempt : ℕ) :
    gate_request_run (mkGateClient { stop_bot := false, stop_bot_iteration := false })
      (fun _ => NetOutcome.transportError) fuel attempt = none := by
  induction fuel generalizing attempt with
  | zero => rfl
  | succ n ih =>
    simpa [gate_request_run, mkGateClient] using ih (attempt + 1)

/-! ## TP/SL modify flow (`OrderTemplates.modify_risk_orders`,
`d_templates.py`) -/

/-- Python's `str.startswith(pre)`. -/
def pyStartsWith (s pre : String) : Bool := pre.data.isPrefixOf s.data

/-- A string built by appending to a word that itself extends the prefix
starts with that prefix. -/
theorem pyStartsWith_append_extends (p q s : String) (h : p.data <+: q.data) :
    pyStartsWith (q ++ s) p = true := by
  unfold pyStartsWith
  rw [List.isPrefixOf_iff_prefix]
  rw [show (q ++ s).data = q.data ++ s.data by simp [String.data_append]]
  exact h.trans (List.prefix_append _ _)

/-- An exchange request issued by the modify flow, in issue order. -/
inductive TrigAction where
  | placeTrigger (kind : String) (trigger_px : ℚ) (contracts : ℚ)
  | cancelOrder (order_id : String)
deriving DecidableEq, Repr

/-- The normalized response to a trigger placement: the exchange error
label (absent on success) and the order id (which the exchange may
omit even on success). -/
structure TrigResp where
  label : Option String
  id : Option String
deriving DecidableEq, Repr

/-- The SL-modify branch of `OrderTemplates.modify_risk_orders`
(`d_templates.py`): its effect on the slot's `sl_order_id` and the
ordered list of exchange requests.  `place_resp` is the normalized
`sl_result` of `_place_trigger_order` for the new trigger (`none` for a
falsy/absent result).  The best-effort cancellation's own outcome is not
an input because the code never lets it touch the stored id — a cancel
failure is only logged and written to `sl_status` with
`overwrite=False`.  `t` is `int(time.time())` at the placeholder-id
synthesis. -/
def modify_risk_orders_sl (slot : Slot) (contracts new_sl : ℚ)
    (price_precision : ℕ) (t : ℕ) (place_resp : Option TrigResp) :
    Slot × List TrigAction :=
  if 0 < new_sl then
    let sl_px := pyRoundDec new_sl price_precision
    let old_sl_id := slot.sl_order_id
    let place := TrigAction.placeTrigger "sl" sl_px contracts
    match place_resp with
    | none => (slot, [place])
    | some resp =>
      if resp.label.isSome then (slot, [place])
      else
        let new_id := resp.id.getD ("virtual_sl_" ++ toString t)
        let slot' := { slot with sl_order_id := some new_id }
        match old_sl_id with
        | none => (slot', [place])
        | some old =>
          if old ≠ new_id ∧ pyStartsWith old "virtual_" = false then
            (slot', [place, TrigAction.cancelOrder old])
          else (slot', [place])
  else (slot, [])

/-- The TP-modify branch of `OrderTemplates.modify_risk_orders`
(`d_templates.py`), under `tp_index ∈ {1, 2}`: validates the requested
price/percentage, rounds the closing quantity up (with the `1e-8`
floor), places the new trigger, stores the returned or synthesized id
in `tp_order{tp_index}_id`, and only then best-effort cancels a stale,
non-virtual previous id. -/
def modify_risk_orders_tp (slot : Slot) (contracts tp_price : ℚ)
    (tp_percent : Option ℚ) (tp_index : ℕ)
    (price_precision contract_precision : ℕ) (t : ℕ)
    (place_resp : Option TrigResp) : Slot × List TrigAction :=
  if 0 < tp_price ∧ 0 ≤ tp_percent.getD 0 then
    let tp_px := pyRoundDec tp_price price_precision
    let portion := (tp_percent.map (fun p => p / 100)).getD 1
    let tp_contracts := max
      (pyRoundDec ((⌈contracts * portion * 10 ^ contract_precision⌉ : ℚ) /
          10 ^ contract_precision) contract_precision)
      (1 / 100000000)
    if 0 < tp_contracts then
      let old_tp_id := if tp_index = 1 then slot.tp_order1_id else slot.tp_order2_id
      let place := TrigAction.placeTrigger "tp" tp_px tp_contracts
      match place_resp with
      | none => (slot, [place])
      | some resp =>
        if resp.label.isSome then (slot, [place])
        else
          let new_id := resp.id.getD
            ("virtual_tp_" ++ (toString tp_index ++ ("_" ++ toString t)))
          let slot' :=
            if tp_index = 1 then { slot with tp_order1_id := some new_id }
            else { slot with tp_order2_id := some new_id }
          match old_tp_id with
          | none => (slot', [place])
          | some old =>
            if old ≠ new_id ∧ pyStartsWith old "virtual_" = false then
              (slot', [place, TrigAction.cancelOrder old])
            else (slot', [place])
    else (slot, [])
  else (slot, [])

/-- The C5 properties, SL branch: (1) any cancellation comes second, after
the new trigger's placement, and only once the exchange accepted the new
trigger; (2) on acceptance the stored id is the returned id or the
placeholder, regardless of the cancellation's outcome; (3) an omitted id
yields the non-null `virtual_` placeholder, which no non-virtual exchange
id can collide with; (4) a stale id that is itself a placeholder is never
submitted for cancellation. -/
theorem modify_sl_props (slot : Slot) (contracts new_sl : ℚ)
    (pp t : ℕ) (place_resp : Option TrigResp) :
    (∀ oid, TrigAction.cancelOrder oid ∈
        (modify_risk_orders_sl slot contracts new_sl pp t place_resp).2 →
      (modify_risk_orders_sl slot contracts new_sl pp t place_resp).2 =
        [TrigAction.placeTrigger "sl" (pyRoundDec new_sl pp) contracts,
         TrigAction.cancelOrder oid] ∧
      ∃ r, place_resp = some r ∧ r.label = none) ∧
    (∀ r, place_resp = some r → r.label = none → 0 < new_sl →
      (modify_risk_orders_sl slot contracts new_sl pp t place_resp).1.sl_order_id =
        some (r.id.getD ("virtual_sl_" ++ toString t))) ∧
    (∀ r, place_resp = some r → r.label = none → 0 < new_sl → r.id = none →
      (modify_risk_orders_sl slot contracts new_sl pp t place_resp).1.sl_order_id =
        some ("virtual_sl_" ++ toString t) ∧
      pyStartsWith ("virtual_sl_" ++ toString t) "virtual_" = true ∧
      ∀ real_id : String, pyStartsWith real_id "virtual_" = false →
        real_id ≠ "virtual_sl_" ++ toString t) ∧
    (∀ old, slot.sl_order_id = some old → pyStartsWith old "virtual_" = true →
      ∀ oid, TrigAction.cancelOrder oid ∉
        (modify_risk_orders_sl slot contracts new_sl pp t place_resp).2) := by
  by_cases hsl : 0 < new_sl
  · cases place_resp with
    | none =>
      have heq : modify_risk_orders_sl slot contracts new_sl pp t none =
          (slot, [TrigAction.placeTrigger "sl" (pyRoundDec new_sl pp) contracts]) := by
        simp only [modify_risk_orders_sl]
        rw [if_pos hsl]
      rw [heq]
      refine ⟨?_, ?_, ?_, ?_⟩
      · intro oid hmem
        simp at hmem
      · intro r hr
        exact Option.noConfusion hr
      · intro r hr
        exact Option.noConfusion hr
      · intro old _ _ oid
        simp
    | some r =>
      by_cases hl : r.label.isSome = true
      · have heq : modify_risk_orders_sl slot contracts new_sl pp t (some r) =
            (slot, [TrigAction.placeTrigger "sl" (pyRoundDec new_sl pp) contracts]) := by
          simp only [modify_risk_orders_sl]
          rw [if_pos hsl, if_pos hl]
        rw [heq]
        refine ⟨?_, ?_, ?_, ?_⟩
        · intro oid hmem
          simp at hmem
        · intro r' hr' hl' _
          cases Option.some.inj hr'
          rw [hl'] at hl
          simp at hl
        · intro r' hr' hl' _
          cases Option.some.inj hr'
          rw [hl'] at hl
          simp at hl
        · intro old _ _ oid
          simp
      · have hlab : r.label = none := Option.not_isSome_iff_eq_none.mp hl
        rcases hold : slot.sl_order_id with _ | old
        · have heq : modify_risk_orders_sl slot contracts new_sl pp t (some r) =
              ({ slot with
                  sl_order_id := some (r.id.getD ("virtual_sl_" ++ toString t)) },
               [TrigAction.placeTrigger "sl" (pyRoundDec new_sl pp) contracts]) := by
            simp only [modify_risk_orders_sl]
            rw [if_pos hsl, if_neg hl, hold]
          rw [heq]
          refine ⟨?_, ?_, ?_, ?_⟩
          · intro oid hmem
            simp at hmem
          · intro r' hr' _ _
            cases Option.some.inj hr'
            rfl
          · intro r' hr' _ _ hid
            cases Option.some.inj hr'
            refine ⟨?_, pyStartsWith_append_extends _ _ _ (by decide), ?_⟩
            · rw [hid]
              rfl
            · intro real hre heq2
              rw [heq2, pyStartsWith_append_extends _ _ _ (by decide)] at hre
              exact Bool.noConfusion hre
          · intro old' hold' _ oid
            exact Option.noConfusion hold'
        · by_cases hc : old ≠ r.id.getD ("virtual_sl_" ++ toString t) ∧
              pyStartsWith old "virtual_" = false
          · have heq : modify_risk_orders_sl slot contracts new_sl pp t (some r) =
                ({ slot with
                    sl_order_id := some (r.id.getD ("virtual_sl_" ++ toString t)) },
                 [TrigAction.placeTrigger "sl" (pyRoundDec new_sl pp) contracts,
                  TrigAction.cancelOrder old]) := by
              simp only [modify_risk_orders_sl]
              rw [if_pos hsl, if_neg hl, hold]
              dsimp only
              rw [if_pos hc]
            rw [heq]
            refine ⟨?_, ?_, ?_, ?_⟩
            · intro oid hmem
              simp only [List.mem_cons, List.mem_singleton, List.not_mem_nil,
                or_false] at hmem
              rcases hmem with h | h
              · exact absurd h (by simp)
              · obtain ⟨rfl⟩ := TrigAction.cancelOrder.inj h
                exact ⟨rfl, r, rfl, hlab⟩
            · intro r' hr' _ _
              cases Option.some.inj hr'
              rfl
            · intro r' hr' _ _ hid
              cases Option.some.inj hr'
              refine ⟨?_, pyStartsWith_append_extends _ _ _ (by decide), ?_⟩
              · rw [hid]
                rfl
              · intro real hre heq2
                rw [heq2, pyStartsWith_append_extends _ _ _ (by decide)] at hre
                exact Bool.noConfusion hre
            · intro old' hold' hv oid
              cases Option.some.inj hold'
              rw [hc.2] at hv
              exact Bool.noConfusion hv
          · have heq : modify_risk_orders_sl slot contracts new_sl pp t (some r) =
                ({ slot with
                    sl_order_id := some (r.id.getD ("virtual_sl_" ++ toString t)) },
                 [TrigAction.placeTrigger "sl" (pyRoundDec new_sl pp) contracts]) := by
              simp only [modify_risk_orders_sl]
              rw [if_pos hsl, if_neg hl, hold]
              dsimp only
              rw [if_neg hc]
            rw [heq]
            refine ⟨?_, ?_, ?_, ?_⟩
            · intro oid hmem
              simp at hmem
            · intro r' hr' _ _
              cases Option.some.inj hr'
              rfl
            · intro r' hr' _ _ hid
              cases Option.some.inj hr'
              refine ⟨?_, pyStartsWith_append_extends _ _ _ (by decide), ?_⟩
              · rw [hid]
                rfl
              · intro real hre heq2
                rw [heq2, pyStartsWith_append_extends _ _ _ (by decide)] at hre
                exact Bool.noConfusion hre
            · intro old' _ _ oid
              simp
  · have heq : modify_risk_orders_sl slot contracts new_sl pp t place_resp =
        (slot, []) := by
      simp only [modify_risk_orders_sl]
      rw [if_neg hsl]
    rw [heq]
    refine ⟨?_, ?_, ?_, ?_⟩
    · intro oid hmem
      simp at hmem
    · intro r _ _ hpos
      exact absurd hpos hsl
    · intro r _ _ hpos
      exact absurd hpos hsl
    · intro old _ _ oid
      simp

/-- The C5 properties, TP branch (mirror of `modify_sl_props` for
`tp_order{tp_index}_id`). -/
theorem modify_tp_props (slot : Slot) (contracts tp_price : ℚ)
    (tp_percent : Option ℚ) (tp_index pp cp t : ℕ) (place_resp : Option TrigResp) :
    (∀ oid, TrigAction.cancelOrder oid ∈
        (modify_risk_orders_tp slot contracts tp_price tp_percent tp_index
          pp cp t place_resp).2 →
      (∃ px c, (modify_risk_orders_tp slot contracts tp_price tp_percent tp_index
          pp cp t place_resp).2 =
        [TrigAction.placeTrigger "tp" px c, TrigAction.cancelOrder oid]) ∧
      ∃ r, place_resp = some r ∧ r.label = none) ∧
    (∀ r, place_resp = some r → r.label = none →
        0 < tp_price ∧ 0 ≤ tp_percent.getD 0 →
      (if tp_index = 1 then
          (modify_risk_orders_tp slot contracts tp_price tp_percent tp_index
            pp cp t place_resp).1.tp_order1_id
        else
          (modify_risk_orders_tp slot contracts tp_price tp_percent tp_index
            pp cp t place_resp).1.tp_order2_id) =
        some (r.id.getD
          ("virtual_tp_" ++ (toString tp_index ++ ("_" ++ toString t))))) ∧
    (∀ r, place_resp = some r → r.label = none →
        0 < tp_price ∧ 0 ≤ tp_percent.getD 0 → r.id = none →
      pyStartsWith ("virtual_tp_" ++ (toString tp_index ++ ("_" ++ toString t)))
          "virtual_" = true ∧
      ∀ real_id : String, pyStartsWith real_id "virtual_" = false →
        real_id ≠ "virtual_tp_" ++ (toString tp_index ++ ("_" ++ toString t))) ∧
    (∀ old, (if tp_index = 1 then slot.tp_order1_id else slot.tp_order2_id) =
        some old → pyStartsWith old "virtual_" = true →
      ∀ oid, TrigAction.cancelOrder oid ∉
        (modify_risk_orders_tp slot contracts tp_price tp_percent tp_index
          pp cp t place_resp).2) := by
  by_cases hin : 0 < tp_price ∧ 0 ≤ tp_percent.getD 0
  · have htpc : 0 < max
        (pyRoundDec ((⌈contracts * ((tp_percent.map (fun p => p / 100)).getD 1) *
            10 ^ cp⌉ : ℚ) / 10 ^ cp) cp)
        (1 / 100000000) :=
      lt_of_lt_of_le (by norm_num) (le_max_right _ _)
    cases place_resp with
    | none =>
      have heq : modify_risk_orders_tp slot contracts tp_price tp_percent tp_index
          pp cp t none =
          (slot, [TrigAction.placeTrigger "tp" (pyRoundDec tp_price pp)
            (max (pyRoundDec ((⌈contracts * ((tp_percent.map (fun p => p / 100)).getD 1) *
                10 ^ cp⌉ : ℚ) / 10 ^ cp) cp) (1 / 100000000))]) := by
        simp only [modify_risk_orders_tp]
        rw [if_pos hin, if_pos htpc]
      rw [heq]
      refine ⟨?_, ?_, ?_, ?_⟩
      · intro oid hmem
        simp at hmem
      · intro r hr
        exact Option.noConfusion hr
      · intro r hr
        exact Option.noConfusion hr
      · intro old _ _ oid
        simp
    | some r =>
      by_cases hl : r.label.isSome = true
      · have heq : modify_risk_orders_tp slot contracts tp_price tp_percent tp_index
            pp cp t (some r) =
            (slot, [TrigAction.placeTrigger "tp" (pyRoundDec tp_price pp)
              (max (pyRoundDec ((⌈contracts * ((tp_percent.map (fun p => p / 100)).getD 1) *
                  10 ^ cp⌉ : ℚ) / 10 ^ cp) cp) (1 / 100000000))]) := by
          simp only [modify_risk_orders_tp]
          rw [if_pos hin, if_pos htpc, if_pos hl]
        rw [heq]
        refine ⟨?_, ?_, ?_, ?_⟩
        · intro oid hmem
          simp at hmem
        · intro r' hr' hl' _
          cases Option.some.inj hr'
          rw [hl'] at hl
          simp at hl
        · intro r' hr' hl' _
          cases Option.some.inj hr'
          rw [hl'] at hl
          simp at hl
        · intro old _ _ oid
          simp
      · rcases hold : (if tp_index = 1 then slot.tp_order1_id else slot.tp_order2_id)
            with _ | old
        · have heq : modify_risk_orders_tp slot contracts tp_price tp_percent tp_index
              pp cp t (some r) =
              ((if tp_index = 1 then
                  { slot with tp_order1_id := some (r.id.getD
                    ("virtual_tp_" ++ (toString tp_index ++ ("_" ++ toString t)))) }
                else
                  { slot with tp_order2_id := some (r.id.getD
                    ("virtual_tp_" ++ (toString tp_index ++ ("_" ++ toString t)))) }),
               [TrigAction.placeTrigger "tp" (pyRoundDec tp_price pp)
                 (max (pyRoundDec ((⌈contracts * ((tp_percent.map (fun p => p / 100)).getD 1) *
                     10 ^ cp⌉ : ℚ) / 10 ^ cp) cp) (1 / 100000000))]) := by
            simp only [modify_risk_orders_tp]
            rw [if_pos hin, if_pos htpc, if_neg hl, hold]
          rw [heq]
          refine ⟨?_, ?_, ?_, ?_⟩
          · intro oid hmem
            simp at hmem
          · intro r' hr' _ _
            cases Option.some.inj hr'
            by_cases hti : tp_index = 1
            · rw [if_pos hti, if_pos hti]
            · rw [if_neg hti, if_neg hti]
          · intro r' hr' _ _ hid
            cases Option.some.inj hr'
            refine ⟨pyStartsWith_append_extends _ _ _ (by decide), ?_⟩
            intro real hre heq2
            rw [heq2, pyStartsWith_append_extends _ _ _ (by decide)] at hre
            exact Bool.noConfusion hre
          · intro old' hold' _ oid
            exact Option.noConfusion hold'
        · by_cases hc : old ≠ r.id.getD
              ("virtual_tp_" ++ (toString tp_index ++ ("_" ++ toString t))) ∧
              pyStartsWith old "virtual_" = false
          · have heq : modify_risk_orders_tp slot contracts tp_price tp_percent tp_index
                pp cp t (some r) =
                ((if tp_index = 1 then
                    { slot with tp_order1_id := some (r.id.getD
                      ("virtual_tp_" ++ (toString tp_index ++ ("_" ++ toString t)))) }
                  else
                    { slot with tp_order2_id := some (r.id.getD
                      ("virtual_tp_" ++ (toString tp_index ++ ("_" ++ toString t)))) }),
                 [TrigAction.placeTrigger "tp" (pyRoundDec tp_price pp)
                   (max (pyRoundDec ((⌈contracts * ((tp_percent.map (fun p => p / 100)).getD 1) *
                       10 ^ cp⌉ : ℚ) / 10 ^ cp) cp) (1 / 100000000)),
                  TrigAction.cancelOrder old]) := by
              simp only [modify_risk_orders_tp]
              rw [if_pos hin, if_pos htpc, if_neg hl, hold]
              dsimp only
              rw [if_pos hc]
            rw [heq]
            refine ⟨?_, ?_, ?_, ?_⟩
            · intro oid hmem
              simp only [List.mem_cons, List.mem_singleton, List.not_mem_nil,
                or_false] at hmem
              rcases hmem with h | h
              · exact absurd h (by simp)
              · obtain ⟨rfl⟩ := TrigAction.cancelOrder.inj h
                exact ⟨⟨_, _, rfl⟩, r, rfl, Option.not_isSome_iff_eq_none.mp hl⟩
            · intro r' hr' _ _
              cases Option.some.inj hr'
              by_cases hti : tp_index = 1
              · rw [if_pos hti, if_pos hti]
              · rw [if_neg hti, if_neg hti]
            · intro r' hr' _ _ hid
              cases Option.some.inj hr'
              refine ⟨pyStartsWith_append_extends _ _ _ (by decide), ?_⟩
              intro real hre heq2
              rw [heq2, pyStartsWith_append_extends _ _ _ (by decide)] at hre
              exact Bool.noConfusion hre
            · intro old' hold' hv oid
              cases Option.some.inj hold'
              rw [hc.2] at hv
              exact Bool.noConfusion hv
          · have heq : modify_risk_orders_tp slot contracts tp_price tp_percent tp_index
                pp cp t (some r) =
                ((if tp_index = 1 then
                    { slot with tp_order1_id := some (r.id.getD
                      ("virtual_tp_" ++ (toString tp_index ++ ("_" ++ toString t)))) }
                  else
                    { slot with tp_order2_id := some (r.id.getD
                      ("virtual_tp_" ++ (toString tp_index ++ ("_" ++ toString t)))) }),
                 [TrigAction.placeTrigger "tp" (pyRoundDec tp_price pp)
                   (max (pyRoundDec ((⌈contracts * ((tp_percent.map (fun p => p / 100)).getD 1) *
                       10 ^ cp⌉ : ℚ) / 10 ^ cp) cp) (1 / 100000000))]) := by
              simp only [modify_risk_orders_tp]
              rw [if_pos hin, if_pos htpc, if_neg hl, hold]
              dsimp only
              rw [if_neg hc]
            rw [heq]
            refine ⟨?_, ?_, ?_, ?_⟩
            · intro oid hmem
              simp at hmem
            · intro r' hr' _ _
              cases Option.some.inj hr'
              by_cases hti : tp_index = 1
              · rw [if_pos hti, if_pos hti]
              · rw [if_neg hti, if_neg hti]
            · intro r' hr' _ _ hid
              cases Option.some.inj hr'
              refine ⟨pyStartsWith_append_extends _ _ _ (by decide), ?_⟩
              intro real hre heq2
              rw [heq2, pyStartsWith_append_extends _ _ _ (by decide)] at hre
              exact Bool.noConfusion hre
            · intro old' _ _ oid
              simp
  · have heq : modify_risk_orders_tp slot contracts tp_price tp_percent tp_index
        pp cp t place_resp = (slot, []) := by
      simp only [modify_risk_orders_tp]
      rw [if_neg hin]
    rw [heq]
    refine ⟨?_, ?_, ?_, ?_⟩
    · intro oid hmem
      simp at hmem
    · intro r _ _ hval
      exact absurd hval hin
    · intro r _ _ hval
      exact absurd hval hin
    · intro old _ _ oid
      simp

/-- C5: in the TP/SL modify flow, the new trigger order is always placed
before any cancellation and the old trigger is cancelled only after the
new one is confirmed (no exchange error label); a cancel failure cannot
undo the newly stored trigger id (the stored id does not depend on the
cancellation's outcome at all); when the exchange accepts the new order
but omits an id, a non-null `virtual_`-prefixed placeholder — which no
non-virtual exchange id can collide with — is stored; and a stale id that
is itself a placeholder is never submitted for cancellation. -/
theorem modify_risk_orders_protection
    (slot : Slot) (contracts new_sl tp_price : ℚ) (tp_percent : Option ℚ)
    (tp_index pp cp t : ℕ) (sl_resp tp_resp : Option TrigResp) :
    ((∀ oid, TrigAction.cancelOrder oid ∈
        (modify_risk_orders_sl slot contracts new_sl pp t sl_resp).2 →
      (modify_risk_orders_sl slot contracts new_sl pp t sl_resp).2 =
        [TrigAction.placeTrigger "sl" (pyRoundDec new_sl pp) contracts,
         TrigAction.cancelOrder oid] ∧
      ∃ r, sl_resp = some r ∧ r.label = none) ∧
    (∀ r, sl_resp = some r → r.label = none → 0 < new_sl →
      (modify_risk_orders_sl slot contracts new_sl pp t sl_resp).1.sl_order_id =
        some (r.id.getD ("virtual_sl_" ++ toString t))) ∧
    (∀ r, sl_resp = some r → r.label = none → 0 < new_sl → r.id = none →
      (modify_risk_orders_sl slot contracts new_sl pp t sl_resp).1.sl_order_id =
        some ("virtual_sl_" ++ toString t) ∧
      pyStartsWith ("virtual_sl_" ++ toString t) "virtual_" = true ∧
      ∀ real_id : String, pyStartsWith real_id "virtual_" = false →
        real_id ≠ "virtual_sl_" ++ toString t) ∧
    (∀ old, slot.sl_order_id = some old → pyStartsWith old "virtual_" = true →
      ∀ oid, TrigAction.cancelOrder oid ∉
        (modify_risk_orders_sl slot contracts new_sl pp t sl_resp).2)) ∧
    ((∀ oid, TrigAction.cancelOrder oid ∈
        (modify_risk_orders_tp slot contracts tp_price tp_percent tp_index
          pp cp t tp_resp).2 →
      (∃ px c, (modify_risk_orders_tp slot contracts tp_price tp_percent tp_index
          pp cp t tp_resp).2 =
        [TrigAction.placeTrigger "tp" px c, TrigAction.cancelOrder oid]) ∧
      ∃ r, tp_resp = some r ∧ r.label = none) ∧
    (∀ r, tp_resp = some r → r.label = none →
        0 < tp_price ∧ 0 ≤ tp_percent.getD 0 →
      (if tp_index = 1 then
          (modify_risk_orders_tp slot contracts tp_price tp_percent tp_index
            pp cp t tp_resp).1.tp_order1_id
        else
          (modify_risk_orders_tp slot contracts tp_price tp_percent tp_index
            pp cp t tp_resp).1.tp_order2_id) =
        some (r.id.getD
          ("virtual_tp_" ++ (toString tp_index ++ ("_" ++ toString t))))) ∧
    (∀ r, tp_resp = some r → r.label = none →
        0 < tp_price ∧ 0 ≤ tp_percent.getD 0 → r.id = none →
      pyStartsWith ("virtual_tp_" ++ (toString tp_index ++ ("_" ++ toString t)))
          "virtual_" = true ∧
      ∀ real_id : String, pyStartsWith real_id "virtual_" = false →
        real_id ≠ "virtual_tp_" ++ (toString tp_index ++ ("_" ++ toString t))) ∧
    (∀ old, (if tp_index = 1 then slot.tp_order1_id else slot.tp_order2_id) =
        some old → pyStartsWith old "virtual_" = true →
      ∀ oid, TrigAction.cancelOrder oid ∉
        (modify_risk_orders_tp slot contracts tp_price tp_percent tp_index
          pp cp t tp_resp).2)) :=
  ⟨modify_sl_props slot contracts new_sl pp t sl_resp,
   modify_tp_props slot contracts tp_price tp_percent tp_index pp cp t tp_resp⟩

/-- Witness for `modify_risk_orders_protection`, at the spec's scenario:
modifying TP1 when the exchange accepts the new trigger but returns no id
stores the non-null synthesized placeholder id. -/
theorem modify_risk_orders_protection_witness :
    (modify_risk_orders_tp pos_vars_root_template 4 51000 (some 50) 1 2 0
        1700000000 (some { label := none, id := none })).1.tp_order1_id =
      some ("virtual_tp_" ++ (toString (1 : ℕ) ++ ("_" ++ toString (1700000000 : ℕ)))) := by
  have h := (modify_risk_orders_protection pos_vars_root_template 4 0 51000
    (some 50) 1 2 0 1700000000 none
    (some { label := none, id := none })).2.2.1
  have h2 := h { label := none, id := none } rfl rfl ⟨by norm_num, by norm_num⟩
  rw [if_pos rfl] at h2
  exact h2

end GateBob
